import Mathlib

/-!
Verification of the hybrid aggregation engine and batched cost-recalculation
job of `src/hive/src/controllers/tsdb.controller.ts`, as a shallow embedding.

Conventions of the embedding:
* JavaScript `Date` instants are epoch milliseconds, modelled as `Int`.
  `setUTCHours(0,0,0,0)` floors an instant to the enclosing UTC day,
  i.e. floor division by 86400000.
* SQL numerics (`cost_total`, latencies) are modelled as `ℚ`; row counts and
  token sums as `Nat`.
* A SQL query that may throw (the continuous-aggregate fetch) is modelled as
  an `Except Unit` value supplied to the router.
* The external pricing service (`pricing_service.calculateCostSync`, outside
  this controller) is a parameter `pricing : CostInput → ℚ`; the controller
  only passes it model/provider/token fields, never the stored cost.
-/

/-! ### Window partitioner (router.get "/logs", tsdb.controller.ts lines 238-266) -/

/-- `utcDayStart(d)`: `new Date(d)` with `setUTCHours(0,0,0,0)` — floor the
instant to the start of its UTC day (floor division, as for JS dates). -/
def utcDayStart (t : Int) : Int := 86400000 * (t.fdiv 86400000)

/-- `addUtcDays(d, days) = new Date(d.getTime() + days * 24*60*60*1000)`. -/
def addUtcDays (t : Int) (days : Int) : Int := t + days * 86400000

/-- `fullBucketStart = start == startDayStart ? startDayStart : addUtcDays(startDayStart, 1)`. -/
def fullBucketStart (s : Int) : Int :=
  if s = utcDayStart s then utcDayStart s else addUtcDays (utcDayStart s) 1

/-- `fullBucketEnd = endDayStart`. -/
def fullBucketEnd (e : Int) : Int := utcDayStart e

/-- `hasFullBuckets = fullBucketStart < fullBucketEnd`. -/
def hasFullBuckets (s e : Int) : Bool := decide (fullBucketStart s < fullBucketEnd e)

/-- `pushRange`: skip the range when `rangeEnd <= rangeStart`, else append it. -/
def pushRange (acc : List (Int × Int)) (rs re : Int) : List (Int × Int) :=
  if re ≤ rs then acc else acc ++ [(rs, re)]

/-- The `partialRanges` array after the two `pushRange` calls:
`pushRange(startDate, min(endDate, fullBucketStart))` then
`pushRange(max(startDate, fullBucketEnd), endDate)`. -/
def rawRanges (s e : Int) : List (Int × Int) :=
  pushRange (pushRange [] s (min e (fullBucketStart s))) (max s (fullBucketEnd e)) e

/-- Number of half-open ranges `[lo, hi)` of a list that contain `t`. -/
def countIn : List (Int × Int) → Int → Nat
  | [], _ => 0
  | r :: rs, t => (if r.1 ≤ t ∧ t < r.2 then 1 else 0) + countIn rs t

/-- How many of the partitioner's ranges (the full-bucket range together with
the partial ranges, all read as half-open intervals) contain the instant `t`. -/
def windowRangeCount (s e t : Int) : Nat :=
  countIn ((fullBucketStart s, fullBucketEnd e) :: rawRanges s e) t

/-! ### Fetch membership for the hybrid path (lines 325-346 and 348-381)

`getBaseAggData` filters `"timestamp" >= $1 AND "timestamp" <= $2` — both
bounds inclusive — while the continuous-aggregate query filters
`bucket >= $1 AND bucket < $2`, and an event with timestamp `t` lies in the
daily bucket `utcDayStart t`. -/

/-- Number of times an event with timestamp `t` is aggregated by the hybrid
path for window `[s, e)`: once per partial-range raw fetch whose inclusive
SQL filter matches `t`, plus once if the rollup fetch runs (`hasFullBuckets`)
and `t`'s daily bucket lies in `[fullBucketStart, fullBucketEnd)`. -/
def fetchCount (s e t : Int) : Nat :=
  ((rawRanges s e).map (fun r => if r.1 ≤ t ∧ t ≤ r.2 then 1 else 0)).sum
  + (if hasFullBuckets s e = true ∧ fullBucketStart s ≤ utcDayStart t ∧ utcDayStart t < fullBucketEnd e
     then 1 else 0)

/-! ### Data model -/

/-- An `llm_events` row (fields used by the controller).  NULL-able token
counts are modelled as 0 because every read coalesces them
(`COALESCE(usage_input_tokens, 0)`, `row.usage_input_tokens || 0`);
`usage_total_tokens` keeps its NULL case because the SQL derives
input+output when it is absent. -/
structure LlmEvent where
  timestamp : Int
  trace_id : String
  call_sequence : Nat
  model : String
  provider : String
  agent : String
  usage_input_tokens : Nat
  usage_output_tokens : Nat
  usage_cached_tokens : Nat
  usage_total_tokens : Option Nat
  cost_total : ℚ
  latency_ms : ℚ
  stream : Bool
deriving DecidableEq

/-- One grouped aggregation row as parsed by the merger (`key` is the joined
group-key string `keyFields.map(f => row[f]).join("|")`). -/
structure AggRow where
  key : String
  request_count : Nat
  total_input_tokens : Nat
  total_output_tokens : Nat
  total_tokens : Nat
  total_cost : ℚ
  avg_latency_ms : ℚ
  first_seen : Int
  last_seen : Int
deriving DecidableEq

/-- A `MergedRow` of `mergeResults`: an aggregation row plus the running
`latency_sum` accumulator. -/
structure MergedRow extends AggRow where
  latency_sum : ℚ
deriving DecidableEq

/-! ### Aggregation merger (`mergeResults`, lines 268-323) -/

/-- First insertion of a key into the merge map: all fields copied,
`latency_sum := avgLatency * requestCount`. -/
def initMerged (r : AggRow) : MergedRow :=
  { toAggRow := r, latency_sum := r.avg_latency_ms * (r.request_count : ℚ) }

/-- Merging a further row into an existing entry: counts, tokens and cost sum;
`avg_latency_ms` is recomputed from the accumulated latency sum, guarded to 0
when the combined count is 0; `first_seen`/`last_seen` take min/max. -/
def combineRow (ex : MergedRow) (r : AggRow) : MergedRow :=
  let newCount := ex.request_count + r.request_count
  let newLatencySum := ex.latency_sum + r.avg_latency_ms * (r.request_count : ℚ)
  { key := ex.key
    request_count := newCount
    total_input_tokens := ex.total_input_tokens + r.total_input_tokens
    total_output_tokens := ex.total_output_tokens + r.total_output_tokens
    total_tokens := ex.total_tokens + r.total_tokens
    total_cost := ex.total_cost + r.total_cost
    avg_latency_ms := if 0 < newCount then newLatencySum / (newCount : ℚ) else 0
    first_seen := min ex.first_seen r.first_seen
    last_seen := max ex.last_seen r.last_seen
    latency_sum := newLatencySum }

/-- `addRow` over the insertion-ordered merge map (JS `Map`): update the
existing entry in place, or append a fresh one. -/
def addRow (m : List (String × MergedRow)) (r : AggRow) : List (String × MergedRow) :=
  if m.any (fun p => p.1 == r.key) then
    m.map (fun p => if p.1 == r.key then (p.1, combineRow p.2 r) else p)
  else m ++ [(r.key, initMerged r)]

/-- The final `.map(({latency_sum, ...rest}) => ({...rest, latency_sum: 0}))`. -/
def zeroLatencySum (p : String × MergedRow) : MergedRow := { p.2 with latency_sum := 0 }

/-- `.sort((a, b) => b.total_cost - a.total_cost)` — sort by total cost
descending (stable). -/
def sortByCostDesc (l : List MergedRow) : List MergedRow :=
  l.mergeSort (fun a b => decide (b.total_cost ≤ a.total_cost))

/-- `mergeResults(caRows, baseRows, keyFields)`: fold all rows (CA rows first,
then base rows) into the keyed map, zero out `latency_sum`, sort by cost. -/
def mergeResults (caRows baseRows : List AggRow) : List MergedRow :=
  sortByCostDesc (((caRows ++ baseRows).foldl addRow []).map zeroLatencySum)

/-! ### Raw-table aggregation fetch (`getBaseAggData`, lines 325-346) -/

/-- `COALESCE(usage_total_tokens, COALESCE(input,0) + COALESCE(output,0))`. -/
def eventTotalTokens (ev : LlmEvent) : Nat :=
  ev.usage_total_tokens.getD (ev.usage_input_tokens + ev.usage_output_tokens)

/-- `MIN` over a group of timestamps (groups are nonempty; 0 is a dummy). -/
def minTs : List Int → Int
  | [] => 0
  | t :: ts => ts.foldl min t

/-- `MAX` over a group of timestamps. -/
def maxTs : List Int → Int
  | [] => 0
  | t :: ts => ts.foldl max t

/-- `getBaseAggData(rangeStart, rangeEnd, ...)`: empty when
`rangeEnd <= rangeStart`, else `GROUP BY` aggregation of the event rows with
`"timestamp" >= $1 AND "timestamp" <= $2` (both bounds inclusive).  The SQL
group key tuple is represented by the joined key string `keyOf`. -/
def getBaseAggData (events : List LlmEvent) (rangeStart rangeEnd : Int)
    (keyOf : LlmEvent → String) : List AggRow :=
  if rangeEnd ≤ rangeStart then [] else
  let inRange := events.filter
    (fun ev => decide (rangeStart ≤ ev.timestamp) && decide (ev.timestamp ≤ rangeEnd))
  ((inRange.map keyOf).dedup).map (fun k =>
    let grp := inRange.filter (fun ev => keyOf ev == k)
    { key := k
      request_count := grp.length
      total_input_tokens := (grp.map (·.usage_input_tokens)).sum
      total_output_tokens := (grp.map (·.usage_output_tokens)).sum
      total_tokens := (grp.map eventTotalTokens).sum
      total_cost := (grp.map (·.cost_total)).sum
      avg_latency_ms := if grp.length = 0 then 0 else (grp.map (·.latency_ms)).sum / (grp.length : ℚ)
      first_seen := minTs (grp.map (·.timestamp))
      last_seen := maxTs (grp.map (·.timestamp)) })

/-! ### Query router (router.get "/logs" grouped branch, lines 217-463) -/

/-- `validGroupFields = ["model", "agent", "provider"]`. -/
def validGroupFields : List String := ["model", "agent", "provider"]

/-- `useModelCA = groupFields.length === 1 && groupFields[0] === "model"`. -/
def useModelCA (gf : List String) : Bool := gf.length == 1 && (gf.getD 0 "") == "model"

/-- `useModelProviderCA = length === 2 && includes("model") && includes("provider")`. -/
def useModelProviderCA (gf : List String) : Bool :=
  gf.length == 2 && gf.contains "model" && gf.contains "provider"

/-- `useAgentCA = groupFields.length === 1 && groupFields[0] === "agent"`. -/
def useAgentCA (gf : List String) : Bool := gf.length == 1 && (gf.getD 0 "") == "agent"

/-- Value of a group field on an event row. -/
def fieldVal (ev : LlmEvent) (f : String) : String :=
  if f == "model" then ev.model
  else if f == "provider" then ev.provider
  else if f == "agent" then ev.agent
  else ""

/-- The joined group-key string of an event for a field list
(`keyFields.map(f => row[f]).join("|")`). -/
def keyOfFields (gf : List String) (ev : LlmEvent) : String :=
  String.intercalate "|" (gf.map (fieldVal ev))

/-- The `/logs` grouped response: the `source` tag and the aggregation rows. -/
structure LogsResponse where
  source : String
  rows : List AggRow
deriving DecidableEq

/-- The base-table fallback (`aggSql`, lines 426-444): whole-window raw
aggregation with `ORDER BY total_cost DESC LIMIT $4 OFFSET $5`. -/
def basePathRows (events : List LlmEvent) (s e : Int) (keyOf : LlmEvent → String)
    (limit offset : Nat) : List AggRow :=
  ((((getBaseAggData events s e keyOf)).mergeSort
      (fun a b => decide (b.total_cost ≤ a.total_cost))).drop offset).take limit

/-- `baseRows = (await Promise.all(partialRanges.map(r => getBaseAggData(...)))).flat()`. -/
def baseRowsOfRanges (events : List LlmEvent) (s e : Int) (keyOf : LlmEvent → String) :
    List AggRow :=
  ((rawRanges s e).map (fun r => getBaseAggData events r.1 r.2 keyOf)).flatten

/-- The hybrid CA-plus-raw attempt with its try/catch and the `usedCA`
fallback: if the CA fetch throws, or `hasFullBuckets` is false, the response
is served from a fresh whole-window base-table query tagged `base_table`;
otherwise the merged result is served tagged `continuous_aggregate`. -/
def runHybrid (events : List LlmEvent) (s e : Int) (keyOf : LlmEvent → String)
    (ca : Except Unit (List AggRow)) (limit offset : Nat) : LogsResponse :=
  let fallback : LogsResponse :=
    { source := "base_table", rows := basePathRows events s e keyOf limit offset }
  match (if hasFullBuckets s e then ca else Except.ok []) with
  | Except.error _ => fallback
  | Except.ok caRows =>
    if hasFullBuckets s e then
      { source := "continuous_aggregate",
        rows := ((((mergeResults caRows (baseRowsOfRanges events s e keyOf)).map
          (·.toAggRow)).drop offset).take limit) }
    else fallback

/-- The key fields actually used by the route taken (CA key shape when
eligible, the requested fields otherwise). -/
def effKeyFields (gf : List String) : List String :=
  if useModelCA gf || useModelProviderCA gf then
    (if useModelProviderCA gf then ["model", "provider"] else ["model"])
  else if useAgentCA gf then ["agent"]
  else gf

/-- The grouped `/logs` route: model/model+provider CA path, agent CA path,
or direct base-table aggregation.  `caModel`/`caAgent` are the outcomes the
two continuous-aggregate queries would have. -/
def runLogsGrouped (gf : List String) (events : List LlmEvent) (s e : Int)
    (caModel caAgent : Except Unit (List AggRow)) (limit offset : Nat) : LogsResponse :=
  if useModelCA gf || useModelProviderCA gf then
    runHybrid events s e
      (keyOfFields (if useModelProviderCA gf then ["model", "provider"] else ["model"]))
      caModel limit offset
  else if useAgentCA gf then
    runHybrid events s e (keyOfFields ["agent"]) caAgent limit offset
  else
    { source := "base_table", rows := basePathRows events s e (keyOfFields gf) limit offset }

/-! ### Period comparison calculator (router.get "/metrics", lines 614-654) -/

/-- `pctChange(curr, prev)`: `(c - p) / p * 100`, and when `p == 0` the
result is `100` if `c > 0` else `0`. -/
def pctChange (curr prev : ℚ) : ℚ :=
  if prev = 0 then (if 0 < curr then 100 else 0) else (curr - prev) / prev * 100

/-- `cacheHitRate = inputTokens > 0 ? cachedTokens / inputTokens * 100 : 0`. -/
def cacheHitRate (cachedTokens inputTokens : ℚ) : ℚ :=
  if 0 < inputTokens then cachedTokens / inputTokens * 100 else 0

/-- `streamingRate = totalRequests > 0 ? streamingRequests / totalRequests * 100 : 0`. -/
def streamingRate (streamingRequests totalRequests : ℚ) : ℚ :=
  if 0 < totalRequests then streamingRequests / totalRequests * 100 else 0

/-- `avgCallsPerTrace = uniqueTraces > 0 ? totalRequests / uniqueTraces : 0`. -/
def avgCallsPerTrace (totalRequests uniqueTraces : ℚ) : ℚ :=
  if 0 < uniqueTraces then totalRequests / uniqueTraces else 0

/-- `costPer1kTokens = totalTokens > 0 ? totalCost / (totalTokens / 1000) : 0`. -/
def costPer1kTokens (totalCost totalTokens : ℚ) : ℚ :=
  if 0 < totalTokens then totalCost / (totalTokens / 1000) else 0

/-! ### /logs pagination clamping (lines 211-212) -/

/-- `limit = Math.min(parseInt(req.query.limit || "500", 10), 5000)`; a
present, parseable query value is `some v`, an absent one is `none`. -/
def effectiveLimit (q : Option Int) : Int := min (q.getD 500) 5000

/-- `offset = Math.max(parseInt(req.query.offset || "0", 10), 0)`. -/
def effectiveOffset (q : Option Int) : Int := max (q.getD 0) 0

/-- Example merger input A of the spec (avg 10 ms over 1 request). -/
def mergeExampleA : AggRow :=
  { key := "m", request_count := 1, total_input_tokens := 0, total_output_tokens := 0,
    total_tokens := 0, total_cost := 0, avg_latency_ms := 10, first_seen := 0, last_seen := 0 }

/-- Example merger input B of the spec (avg 100 ms over 9 requests). -/
def mergeExampleB : AggRow :=
  { key := "m", request_count := 9, total_input_tokens := 0, total_output_tokens := 0,
    total_tokens := 0, total_cost := 0, avg_latency_ms := 100, first_seen := 0, last_seen := 0 }

/-! ### Cost recalculation batch processor (router.post "/recalculate-costs",
lines 1030-1212)

The batch fetch `selectSql` pages `ORDER BY "timestamp" LIMIT $4 OFFSET $5`
over the rows of `["start", "end"]`; since recalculation rewrites only
`cost_total` (never timestamps), the pages are the successive slices of one
fixed ordered row list, which is the `table` parameter below.  The wall clock
is modelled by `elapsed : Nat → Nat`, the value of `Date.now() - startTime`
observed at the safety check after the given batch number. -/

/-- The argument record passed to `pricingService.calculateCostSync` — note
the stored `cost_total` is not part of it. -/
structure CostInput where
  model : String
  provider : String
  input_tokens : Nat
  output_tokens : Nat
  cached_tokens : Nat
deriving DecidableEq

/-- The fields the recalculation loop passes to the pricing service. -/
def costInputOf (r : LlmEvent) : CostInput :=
  { model := r.model, provider := r.provider, input_tokens := r.usage_input_tokens,
    output_tokens := r.usage_output_tokens, cached_tokens := r.usage_cached_tokens }

/-- `Math.abs(newCost - oldCost) > 0.000001` — the epsilon guard deciding
whether a row is queued for update. -/
def shouldUpdate (pricing : CostInput → ℚ) (r : LlmEvent) : Bool :=
  decide ((1 : ℚ)/1000000 < |pricing (costInputOf r) - r.cost_total|)

/-- Effect of one batch update on one row: rewrite `cost_total` exactly when
the epsilon guard fired, leave the row untouched otherwise. -/
def applyRow (pricing : CostInput → ℚ) (r : LlmEvent) : LlmEvent :=
  if shouldUpdate pricing r then { r with cost_total := pricing (costInputOf r) } else r

/-- The `results` accumulator of the recalculation run (error entries are
modelled by their message strings). -/
structure RecalcResults where
  updated : Nat
  processed : Nat
  errors : List String
  batches : Nat
deriving DecidableEq

/-- The warning string pushed when the 5-minute deadline is exceeded. -/
def timeoutMsg : String := "Timeout reached after 5 minutes. Partial recalculation completed."

/-- The `while (hasMore)` loop:  fetch the page at the current offset, stop on
an empty fetch; otherwise count the batch, recompute each row's cost and
queue it when the epsilon guard fires, apply the queued updates, advance the
offset, and after the batch stop if more than `5 * 60 * 1000` ms have
elapsed, recording the timeout warning.  Returns the final accumulator and
the table after all applied updates.  The fuel argument exceeds the number of
iterations (each nonempty fetch consumes at least one row). -/
def recalcGo (pricing : CostInput → ℚ) (bsize : Nat) (elapsed : Nat → Nat) :
    Nat → List LlmEvent → RecalcResults → RecalcResults × List LlmEvent
  | 0, rem, res => (res, rem)
  | fuel + 1, rem, res =>
    let fetched := rem.take bsize
    if fetched = [] then (res, rem)
    else
      let newBatch := fetched.map (applyRow pricing)
      let res1 : RecalcResults :=
        { updated := res.updated + (fetched.filter (shouldUpdate pricing)).length
          processed := res.processed + fetched.length
          errors := res.errors
          batches := res.batches + 1 }
      if 300000 < elapsed res1.batches then
        ({ res1 with errors := res1.errors ++ [timeoutMsg] }, newBatch ++ rem.drop bsize)
      else
        let next := recalcGo pricing bsize elapsed fuel (rem.drop bsize) res1
        (next.1, newBatch ++ next.2)

/-- A whole recalculation run over the ordered rows of the requested range. -/
def recalcRun (pricing : CostInput → ℚ) (table : List LlmEvent) (bsize : Nat)
    (elapsed : Nat → Nat) : RecalcResults × List LlmEvent :=
  recalcGo pricing bsize elapsed (table.length + 1) table
    { updated := 0, processed := 0, errors := [], batches := 0 }

/-- Top-level keys of the JSON object returned by `/recalculate-costs`
(lines 1193-1205). -/
def recalcResponseKeys : List String :=
  ["message", "period", "stats", "continuous_aggregates", "errors", "error_count"]

/-- Keys of the `stats` sub-object of the `/recalculate-costs` response. -/
def recalcStatsKeys : List String := ["processed", "updated", "batches", "duration_ms"]

/-! ### group_by validation (router.get "/logs", lines 217-226) -/

/-- JS `String.prototype.split(sep)` on the character list of the string
(`"".split(",") = [""]`, separators at the ends produce empty pieces). -/
def jsSplit (sep : Char) : List Char → List (List Char)
  | [] => [[]]
  | c :: cs =>
    if c = sep then [] :: jsSplit sep cs
    else
      match jsSplit sep cs with
      | t :: ts => (c :: t) :: ts
      | [] => [[c]]

/-- ASCII whitespace test for `trim` (the JS inputs here are ASCII). -/
def isWsChar (c : Char) : Bool := c = ' ' || c = '\t' || c = '\n' || c = '\r'

/-- JS `String.prototype.trim()`: strip whitespace from both ends. -/
def jsTrim (cs : List Char) : List Char :=
  ((cs.dropWhile isWsChar).reverse.dropWhile isWsChar).reverse

/-- `group_by.split(",").map(f => f.trim())` — the requested fields before
filtering. -/
def rawGroupFields (group_by : String) : List String :=
  (jsSplit ',' group_by.data).map (fun cs => String.mk (jsTrim cs))

/-- `groupFields = group_by.split(",").map(trim).filter(f => validGroupFields.includes(f))`. -/
def groupFields (group_by : String) : List String :=
  (rawGroupFields group_by).filter (fun f => validGroupFields.contains f)

/-- The validation outcome for a grouped request: HTTP 400 `invalid_group_by`
only when the filtered field list is empty, otherwise the query proceeds with
the filtered fields. -/
def logsGroupOutcome (group_by : String) : Except String (List String) :=
  if groupFields group_by = [] then Except.error "invalid_group_by"
  else Except.ok (groupFields group_by)

/-! ### Batch fetch ordering (selectSql, lines 1079-1094)

`selectSql` orders only by `"timestamp"`; PostgreSQL guarantees nothing about
the relative order of rows with equal timestamps, so a fetch result is any
timestamp-sorted permutation of the range's rows, and each batch is the
`LIMIT`/`OFFSET` slice of one such permutation (each fetch may pick a
different permutation). -/

/-- Timestamp comparison used by `ORDER BY "timestamp"`. -/
def tsLe (a b : LlmEvent) : Prop := a.timestamp ≤ b.timestamp

/-- Orderings the SQL `ORDER BY "timestamp"` may return for a row set. -/
def ordByTimestamp (table ord : List LlmEvent) : Prop :=
  table.Perm ord ∧ ord.Sorted tsLe

/-- Results a single `LIMIT limit OFFSET offset` batch fetch may return. -/
def pageFetch (table : List LlmEvent) (limit offset : Nat) (res : List LlmEvent) : Prop :=
  ∃ ord, ordByTimestamp table ord ∧ res = (ord.drop offset).take limit

/-- Ascending order by the full composite key
`(timestamp, trace_id, call_sequence)` — the ordering the claim asserts. -/
def compositeLe (a b : LlmEvent) : Prop :=
  a.timestamp < b.timestamp
  ∨ (a.timestamp = b.timestamp
      ∧ (a.trace_id < b.trace_id
          ∨ (a.trace_id = b.trace_id ∧ a.call_sequence ≤ b.call_sequence)))

/-- A row with timestamp 0 and trace id "a". -/
def rowTieA : LlmEvent :=
  { timestamp := 0, trace_id := "a", call_sequence := 1, model := "m", provider := "p",
    agent := "g", usage_input_tokens := 0, usage_output_tokens := 0,
    usage_cached_tokens := 0, usage_total_tokens := none, cost_total := 0,
    latency_ms := 0, stream := false }

/-- A second row with the same timestamp 0 but a smaller `call_sequence`. -/
def rowTieB : LlmEvent := { rowTieA with call_sequence := 0 }

/-- A row with a distinct, later timestamp. -/
def rowLater : LlmEvent := { rowTieA with timestamp := 5, trace_id := "b" }

/-- Sample event row for the recalculation examples (stored cost 5). -/
def recalcRowOne : LlmEvent :=
  { timestamp := 10, trace_id := "t1", call_sequence := 1, model := "m", provider := "p",
    agent := "g", usage_input_tokens := 100, usage_output_tokens := 50,
    usage_cached_tokens := 0, usage_total_tokens := none, cost_total := 5,
    latency_ms := 0, stream := false }

/-- Second sample event row for the recalculation examples (stored cost 1). -/
def recalcRowTwo : LlmEvent :=
  { recalcRowOne with timestamp := 20, trace_id := "t2", cost_total := 1 }

/-! ### Theorems -/

/-- Floor-to-day bounds: `utcDayStart t ≤ t < utcDayStart t + 86400000`,
and `utcDayStart t` is a multiple of 86400000. -/
theorem utcDayStart_spec (t : Int) :
    utcDayStart t ≤ t ∧ t < utcDayStart t + 86400000 ∧ ∃ q, utcDayStart t = 86400000 * q := by
  unfold utcDayStart
  rw [Int.fdiv_eq_ediv _ (by norm_num)]
  refine ⟨?_, ?_, ⟨t / 86400000, rfl⟩⟩ <;> omega

/-- Claim C1 (counterexample): for the same-UTC-day window
`start = 1970-01-01T06:00Z`, `end = 1970-01-01T18:00Z` (so
`fullBucketStart = day 1 > fullBucketEnd = day 0`), the code pushes the whole
window as a partial range twice; the two partial ranges are identical and
overlapping, and the instant 08:20Z is covered by two ranges, not one. -/
theorem window_partition_counterexample :
    rawRanges 21600000 64800000 = [(21600000, 64800000), (21600000, 64800000)]
    ∧ windowRangeCount 21600000 64800000 30000000 = 2 := by
  constructor <;> rfl

/-- Claim C1 (amended): for every window with `start < end`, whenever
`fullBucketStart ≤ fullBucketEnd` (in particular whenever the full-bucket
range is nonempty, the only case whose merged result is served), the
full-bucket range and the partial ranges are pairwise disjoint and cover
`[start, end)` exactly — every instant of the window lies in exactly one
range.  When `fullBucketStart > fullBucketEnd` (a same-day window with a
non-midnight start), the code instead pushes the whole window `[start, end)`
as a partial range twice, so every instant of the window is covered exactly
twice. -/
theorem window_partition_amended (s e : Int) (hse : s < e) :
    (fullBucketStart s ≤ fullBucketEnd e →
      ∀ t, windowRangeCount s e t = if s ≤ t ∧ t < e then 1 else 0)
    ∧ (fullBucketEnd e < fullBucketStart s →
      rawRanges s e = [(s, e), (s, e)]
      ∧ ∀ t, windowRangeCount s e t = if s ≤ t ∧ t < e then 2 else 0) := by
  obtain ⟨hs1, hs2, qs, hqs⟩ := utcDayStart_spec s
  obtain ⟨he1, he2, qe, hqe⟩ := utcDayStart_spec e
  constructor
  · intro hle t
    simp only [windowRangeCount, rawRanges, pushRange, fullBucketStart, fullBucketEnd,
      addUtcDays] at *
    split_ifs at * <;> simp only [countIn, List.nil_append, List.cons_append,
      List.append_nil, List.singleton_append] <;> split_ifs <;> omega
  · intro hgt
    have hkey : fullBucketEnd e ≤ s ∧ e ≤ fullBucketStart s ∧ ¬ s = utcDayStart s := by
      simp only [fullBucketStart, fullBucketEnd, addUtcDays] at *
      split_ifs at * <;> omega
    constructor
    · simp only [rawRanges, pushRange]
      have h1 : min e (fullBucketStart s) = e := by omega
      have h2 : max s (fullBucketEnd e) = s := by omega
      rw [h1, h2]
      split_ifs <;> first | rfl | omega
    · intro t
      simp only [windowRangeCount, rawRanges, pushRange, fullBucketStart, fullBucketEnd,
        addUtcDays] at *
      split_ifs at * <;> simp only [countIn, List.nil_append, List.cons_append,
        List.append_nil, List.singleton_append] <;> split_ifs <;> omega

/-- Witness for `window_partition_amended` at the spec's own example window
`start = day0 12:00Z`, `end = day2 06:00Z`. -/
theorem window_partition_amended_witness :
    (43200000 : Int) < 194400000
    ∧ ((fullBucketStart 43200000 ≤ fullBucketEnd 194400000 →
        ∀ t, windowRangeCount 43200000 194400000 t = if 43200000 ≤ t ∧ t < 194400000 then 1 else 0)
      ∧ (fullBucketEnd 194400000 < fullBucketStart 43200000 →
        rawRanges 43200000 194400000 = [(43200000, 194400000), (43200000, 194400000)]
        ∧ ∀ t, windowRangeCount 43200000 194400000 t =
            if 43200000 ≤ t ∧ t < 194400000 then 2 else 0)) :=
  ⟨by norm_num, window_partition_amended 43200000 194400000 (by norm_num)⟩

/-- Claim C2: on the hybrid path for the window
`[day0 12:00Z, day2 06:00Z)` (full-bucket range = day 1), an event at
exactly the UTC-midnight boundary `day1 00:00Z` is aggregated twice — once by
the head partial raw fetch, whose SQL upper bound `"timestamp" <= $2` is
inclusive, and once by the day-1 rollup bucket — while an interior event
(day1 03:46:40Z) is aggregated exactly once. -/
theorem boundary_event_double_counted :
    ((43200000 : Int) ≤ 86400000 ∧ (86400000 : Int) < 194400000)
    ∧ fetchCount 43200000 194400000 86400000 = 2
    ∧ fetchCount 43200000 194400000 100000000 = 1 := by
  refine ⟨by norm_num, ?_, ?_⟩ <;> rfl

/-- Claim C3: merging two partial aggregates with the same group key, in
either order, sums `request_count`, the token counters and `total_cost`
directly, takes min/max of `first_seen`/`last_seen`, and recombines
`avg_latency_ms` as the count-weighted mean
`(avgA*countA + avgB*countB) / (countA + countB)`, guarded to 0 when the
combined count is 0. -/
theorem merge_weighted_average (a b : AggRow) (h : a.key = b.key) :
    mergeResults [a] [b] =
      [{ key := a.key
         request_count := a.request_count + b.request_count
         total_input_tokens := a.total_input_tokens + b.total_input_tokens
         total_output_tokens := a.total_output_tokens + b.total_output_tokens
         total_tokens := a.total_tokens + b.total_tokens
         total_cost := a.total_cost + b.total_cost
         avg_latency_ms :=
           if a.request_count + b.request_count = 0 then 0
           else (a.avg_latency_ms * (a.request_count : ℚ)
                  + b.avg_latency_ms * (b.request_count : ℚ))
                / ((a.request_count : ℚ) + (b.request_count : ℚ))
         first_seen := min a.first_seen b.first_seen
         last_seen := max a.last_seen b.last_seen
         latency_sum := 0 }]
    ∧ mergeResults [b] [a] = mergeResults [a] [b] := by
  have hba : b.key = a.key := h.symm
  constructor
  · simp only [mergeResults, List.singleton_append, List.foldl_cons, List.foldl_nil, addRow,
      List.any_nil, Bool.false_eq_true, if_false, List.nil_append, List.any_cons,
      beq_iff_eq, h]
    simp only [List.any_nil, Bool.or_false, beq_self_eq_true, if_true, List.map_cons,
      List.map_nil, sortByCostDesc, List.mergeSort_singleton, zeroLatencySum,
      combineRow, initMerged]
    simp only [List.cons.injEq, and_true, MergedRow.mk.injEq, AggRow.mk.injEq]
    refine ⟨h, trivial, trivial, trivial, trivial, trivial, ?_⟩
    by_cases hc : a.request_count + b.request_count = 0
    · simp [hc]
    · have hpos : 0 < a.request_count + b.request_count := Nat.pos_of_ne_zero hc
      simp only [hpos, if_true, hc, if_false]
      push_cast
      ring_nf
  · simp only [mergeResults, List.singleton_append, List.foldl_cons, List.foldl_nil, addRow,
      List.any_nil, Bool.false_eq_true, if_false, List.nil_append, List.any_cons,
      beq_iff_eq, hba]
    simp only [List.any_nil, Bool.or_false, beq_self_eq_true, if_true, List.map_cons,
      List.map_nil, sortByCostDesc, List.mergeSort_singleton, zeroLatencySum,
      combineRow, initMerged]
    simp only [List.cons.injEq, and_true, MergedRow.mk.injEq, AggRow.mk.injEq]
    refine ⟨hba, Nat.add_comm _ _, Nat.add_comm _ _, Nat.add_comm _ _, Nat.add_comm _ _,
      add_comm _ _, ?_, min_comm _ _, max_comm _ _⟩
    by_cases hc : a.request_count + b.request_count = 0
    · have hc2 : b.request_count + a.request_count = 0 := by omega
      simp [hc, hc2]
    · have h1 : 0 < a.request_count + b.request_count := Nat.pos_of_ne_zero hc
      have h2 : 0 < b.request_count + a.request_count := by omega
      simp only [h1, h2, if_true]
      push_cast
      ring_nf

/-- Witness for `merge_weighted_average` at the spec's example: A with avg 10
over 1 request merged with B with avg 100 over 9 requests yields 91, not 55. -/
theorem merge_weighted_average_witness :
    mergeResults [mergeExampleA] [mergeExampleB] =
      [{ key := "m", request_count := 10, total_input_tokens := 0, total_output_tokens := 0,
         total_tokens := 0, total_cost := 0, avg_latency_ms := 91, first_seen := 0,
         last_seen := 0, latency_sum := 0 }] := by
  have h := (merge_weighted_average mergeExampleA mergeExampleB rfl).1
  rw [h]
  norm_num [mergeExampleA, mergeExampleB]

/-- Claim C4: for every rollup-eligible grouped query, when the CA fetch
throws the request is still answered: the response is exactly the
whole-window base-table aggregation tagged `source = "base_table"`; when the
CA fetches succeed and the full-bucket range is nonempty the response is
tagged `source = "continuous_aggregate"`. -/
theorem rollup_fail_open (gf : List String) (events : List LlmEvent) (s e : Int)
    (limit offset : Nat)
    (helig : (useModelCA gf || useModelProviderCA gf || useAgentCA gf) = true) :
    runLogsGrouped gf events s e (Except.error ()) (Except.error ()) limit offset
      = { source := "base_table",
          rows := basePathRows events s e (keyOfFields (effKeyFields gf)) limit offset }
    ∧ (∀ caM caA, hasFullBuckets s e = true →
        (runLogsGrouped gf events s e (Except.ok caM) (Except.ok caA) limit offset).source
          = "continuous_aggregate") := by
  by_cases h1 : (useModelCA gf || useModelProviderCA gf) = true
  · constructor
    · cases hfb : hasFullBuckets s e <;>
        simp [runLogsGrouped, runHybrid, effKeyFields, h1, hfb,
          useModelCA, useModelProviderCA] at * <;>
        simp [h1]
    · intro caM caA hfull
      simp [runLogsGrouped, runHybrid, h1, hfull]
  · have h2 : useAgentCA gf = true := by
      rcases Bool.or_eq_true_iff.mp helig with h | h
      · exact absurd h h1
      · exact h
    have h3 : ¬ (useModelCA gf || useModelProviderCA gf) = true := h1
    constructor
    · cases hfb : hasFullBuckets s e <;>
        simp [runLogsGrouped, runHybrid, effKeyFields, h2, h3, hfb]
    · intro caM caA hfull
      simp [runLogsGrouped, runHybrid, h2, h3, hfull]

/-- Witness for `rollup_fail_open`: a `{model}`-only grouped query over the
two full days `[day0, day2)` with no events; the CA-throw response is the
base-table response, and the successful-CA response is tagged
`continuous_aggregate`. -/
theorem rollup_fail_open_witness :
    (useModelCA ["model"] || useModelProviderCA ["model"] || useAgentCA ["model"]) = true
    ∧ (runLogsGrouped ["model"] [] 0 172800000 (Except.error ()) (Except.error ()) 5 0
        = { source := "base_table",
            rows := basePathRows [] 0 172800000 (keyOfFields (effKeyFields ["model"])) 5 0 }
      ∧ ∀ caM caA, hasFullBuckets 0 172800000 = true →
          (runLogsGrouped ["model"] [] 0 172800000 (Except.ok caM) (Except.ok caA) 5 0).source
            = "continuous_aggregate") :=
  ⟨by decide, rollup_fail_open ["model"] [] 0 172800000 5 0 (by decide)⟩

/-- Claim C7: the period summary's percent change is `(curr - prev)/prev*100`
whenever `prev ≠ 0`, exactly 100 when `prev = 0 < curr`, exactly 0 when
`prev = 0` and `curr ≤ 0`; and each derived ratio (cache-hit rate, streaming
rate, average calls per trace, cost per 1000 tokens) is exactly 0 when its
denominator is 0. -/
theorem period_summary_zero_guards :
    (∀ curr prev : ℚ, prev ≠ 0 → pctChange curr prev = (curr - prev) / prev * 100)
    ∧ (∀ curr : ℚ, 0 < curr → pctChange curr 0 = 100)
    ∧ (∀ curr : ℚ, curr ≤ 0 → pctChange curr 0 = 0)
    ∧ (∀ x : ℚ, cacheHitRate x 0 = 0 ∧ streamingRate x 0 = 0
        ∧ avgCallsPerTrace x 0 = 0 ∧ costPer1kTokens x 0 = 0) := by
  refine ⟨fun c p hp => ?_, fun c hc => ?_, fun c hc => ?_, fun x => ?_⟩
  · simp [pctChange, hp]
  · simp [pctChange, hc]
  · simp [pctChange, not_lt.mpr hc]
  · simp [cacheHitRate, streamingRate, avgCallsPerTrace, costPer1kTokens]

/-- Witness for `period_summary_zero_guards` at concrete values:
`(5-4)/4*100 = 25`, the from-zero cases, and the zero denominators. -/
theorem period_summary_zero_guards_witness :
    pctChange 5 4 = 25 ∧ pctChange 5 0 = 100 ∧ pctChange 0 0 = 0
    ∧ cacheHitRate 7 0 = 0 ∧ streamingRate 3 0 = 0
    ∧ avgCallsPerTrace 2 0 = 0 ∧ costPer1kTokens 9 0 = 0 := by
  have h := period_summary_zero_guards
  refine ⟨?_, h.2.1 5 (by norm_num), h.2.2.1 0 le_rfl,
    (h.2.2.2 7).1, (h.2.2.2 3).2.1, (h.2.2.2 2).2.2.1, (h.2.2.2 9).2.2.2⟩
  rw [h.1 5 4 (by norm_num)]
  norm_num

/-- Claim C10: `/logs` never rejects pagination values — the effective limit
is `min(parsed, 5000)` (500 when absent) and the effective offset is
`max(parsed, 0)` (0 when absent); offsets are clamped to be nonnegative and
oversized limits are clamped to 5000. -/
theorem logs_paging_clamped :
    effectiveLimit none = 500 ∧ effectiveOffset none = 0
    ∧ (∀ v : Int, effectiveLimit (some v) = min v 5000 ∧ effectiveOffset (some v) = max v 0
        ∧ 0 ≤ effectiveOffset (some v))
    ∧ (∀ v : Int, 5000 ≤ v → effectiveLimit (some v) = 5000)
    ∧ (∀ v : Int, v ≤ 0 → effectiveOffset (some v) = 0) := by
  refine ⟨rfl, rfl, fun v => ⟨rfl, rfl, ?_⟩, fun v hv => ?_, fun v hv => ?_⟩ <;>
    simp [effectiveLimit, effectiveOffset] <;> omega

/-- Witness for `logs_paging_clamped`: an oversized limit is clamped to 5000
and a negative offset to 0. -/
theorem logs_paging_clamped_witness :
    effectiveLimit (some 999999) = 5000 ∧ effectiveOffset (some (-7)) = 0 :=
  ⟨logs_paging_clamped.2.2.2.1 999999 (by norm_num),
   logs_paging_clamped.2.2.2.2 (-7) (by norm_num)⟩

/-- Unfolding helper: one iteration of the recalculation loop on a nonempty
fetch that does not hit the deadline. -/
theorem recalcGo_step (pricing : CostInput → ℚ) (bsize : Nat) (elapsed : Nat → Nat)
    (fuel : Nat) (rem : List LlmEvent) (res : RecalcResults)
    (hne : ¬ rem.take bsize = [])
    (hto : ¬ 300000 < elapsed (res.batches + 1)) :
    recalcGo pricing bsize elapsed (fuel + 1) rem res =
      ((recalcGo pricing bsize elapsed fuel (rem.drop bsize)
          { updated := res.updated + ((rem.take bsize).filter (shouldUpdate pricing)).length
            processed := res.processed + (rem.take bsize).length
            errors := res.errors
            batches := res.batches + 1 }).1,
        (rem.take bsize).map (applyRow pricing)
          ++ (recalcGo pricing bsize elapsed fuel (rem.drop bsize)
              { updated := res.updated + ((rem.take bsize).filter (shouldUpdate pricing)).length
                processed := res.processed + (rem.take bsize).length
                errors := res.errors
                batches := res.batches + 1 }).2) := by
  simp only [recalcGo]
  rw [if_neg hne, if_neg hto]

/-- Unfolding helper: one iteration of the recalculation loop on a nonempty
fetch that hits the deadline and stops. -/
theorem recalcGo_stop (pricing : CostInput → ℚ) (bsize : Nat) (elapsed : Nat → Nat)
    (fuel : Nat) (rem : List LlmEvent) (res : RecalcResults)
    (hne : ¬ rem.take bsize = [])
    (hto : 300000 < elapsed (res.batches + 1)) :
    recalcGo pricing bsize elapsed (fuel + 1) rem res =
      ({ updated := res.updated + ((rem.take bsize).filter (shouldUpdate pricing)).length
         processed := res.processed + (rem.take bsize).length
         errors := res.errors ++ [timeoutMsg]
         batches := res.batches + 1 },
        (rem.take bsize).map (applyRow pricing) ++ rem.drop bsize) := by
  simp only [recalcGo]
  rw [if_neg hne, if_pos hto]

/-- The recalculation loop, started anywhere, that reaches its deadline right
after batch `k + 1` processes exactly the `k + 1` next full batches and stops
at that boundary with the timeout warning recorded. -/
theorem recalcGo_timeout (pricing : CostInput → ℚ) (bsize : Nat) (elapsed : Nat → Nat) :
    ∀ (k fuel : Nat) (rem : List LlmEvent) (res : RecalcResults),
      rem.length < fuel → 0 < bsize →
      (∀ j, res.batches + 1 ≤ j → j ≤ res.batches + k → elapsed j ≤ 300000) →
      300000 < elapsed (res.batches + k + 1) →
      (k + 1) * bsize ≤ rem.length →
      recalcGo pricing bsize elapsed fuel rem res =
        ({ updated := res.updated
              + ((rem.take ((k + 1) * bsize)).filter (shouldUpdate pricing)).length
           processed := res.processed + (k + 1) * bsize
           errors := res.errors ++ [timeoutMsg]
           batches := res.batches + k + 1 },
          (rem.take ((k + 1) * bsize)).map (applyRow pricing) ++ rem.drop ((k + 1) * bsize)) := by
  intro k
  induction k with
  | zero =>
    intro fuel rem res hfuel hb hle hgt hlen
    simp only [Nat.zero_add, Nat.add_zero, one_mul] at hgt hlen ⊢
    have hrem : bsize ≤ rem.length := hlen
    match fuel, hfuel with
    | fuel + 1, hfuel =>
      have hne : ¬ rem.take bsize = [] := by
        rw [List.take_eq_nil_iff]
        rintro (h | h) <;> [omega; (rw [h] at hrem; simp at hrem; omega)]
      rw [recalcGo_stop pricing bsize elapsed fuel rem res hne (by simpa using hgt)]
      have hlt : (rem.take bsize).length = bsize := by
        rw [List.length_take]; omega
      rw [hlt]
  | succ k ih =>
    intro fuel rem res hfuel hb hle hgt hlen
    have hmul : (k + 1 + 1) * bsize = (k + 1) * bsize + bsize := by ring
    have hmul2 : (k + 1) * bsize + bsize = bsize + (k + 1) * bsize := by ring
    have hrem : bsize ≤ rem.length := by
      have h1 : bsize ≤ (k + 1 + 1) * bsize := by nlinarith
      omega
    match fuel, hfuel with
    | fuel + 1, hfuel =>
      have hne : ¬ rem.take bsize = [] := by
        rw [List.take_eq_nil_iff]
        rintro (h | h) <;> [omega; (rw [h] at hrem; simp at hrem; omega)]
      have hto : ¬ 300000 < elapsed (res.batches + 1) := by
        have := hle (res.batches + 1) (le_refl _) (by omega)
        omega
      rw [recalcGo_step pricing bsize elapsed fuel rem res hne hto]
      have hlt : (rem.take bsize).length = bsize := by
        rw [List.length_take]; omega
      rw [hlt]
      have hg2 : 300000 < elapsed (res.batches + 1 + k + 1) := by
        have harg : res.batches + 1 + k + 1 = res.batches + (k + 1) + 1 := by omega
        rw [harg]; exact hgt
      have hl2 : ∀ j, res.batches + 1 + 1 ≤ j → j ≤ res.batches + 1 + k → elapsed j ≤ 300000 := by
        intro j hj1 hj2
        exact hle j (by omega) (by omega)
      have hrec := ih fuel (rem.drop bsize)
        { updated := res.updated + ((rem.take bsize).filter (shouldUpdate pricing)).length
          processed := res.processed + bsize
          errors := res.errors
          batches := res.batches + 1 }
        (by rw [List.length_drop]; omega) hb hl2 hg2
        (by rw [List.length_drop]; omega)
      rw [hrec]
      have htake : rem.take ((k + 1 + 1) * bsize)
          = rem.take bsize ++ (rem.drop bsize).take ((k + 1) * bsize) := by
        rw [hmul, hmul2, List.take_add]
      have hdrop : (rem.drop bsize).drop ((k + 1) * bsize) = rem.drop ((k + 1 + 1) * bsize) := by
        rw [List.drop_drop, hmul, hmul2]
      rw [htake, List.filter_append, List.length_append, List.map_append, hdrop]
      simp only [Prod.mk.injEq, RecalcResults.mk.injEq]
      refine ⟨⟨by omega, by omega, trivial, by omega⟩, by rw [List.append_assoc]⟩

/-- Claim C5 (amended): when the recalculation run first exceeds its
5-minute wall-clock deadline at the check after batch `k + 1` (with further
rows remaining), it stops at that batch boundary: exactly `k + 1` batches
run, `processed` counts exactly the rows of those batches, the timeout is
reported as the warning entry `timeoutMsg` in `errors` (the response carries
no `partial` field — see the counterexample), and the remainder of the range
after the processed prefix is left untouched. -/
theorem recalc_timeout_reports (pricing : CostInput → ℚ) (table : List LlmEvent)
    (bsize : Nat) (elapsed : Nat → Nat) (k : Nat)
    (hb : 0 < bsize)
    (hle : ∀ j, 1 ≤ j → j ≤ k → elapsed j ≤ 300000)
    (hgt : 300000 < elapsed (k + 1))
    (hlen : (k + 1) * bsize ≤ table.length) :
    recalcRun pricing table bsize elapsed =
      ({ updated := ((table.take ((k + 1) * bsize)).filter (shouldUpdate pricing)).length
         processed := (k + 1) * bsize
         errors := [timeoutMsg]
         batches := k + 1 },
        (table.take ((k + 1) * bsize)).map (applyRow pricing)
          ++ table.drop ((k + 1) * bsize)) := by
  have h := recalcGo_timeout pricing bsize elapsed k (table.length + 1) table
    { updated := 0, processed := 0, errors := [], batches := 0 }
    (by omega) hb (by simpa using hle) (by simpa using hgt) hlen
  simpa [recalcRun] using h

/-- Witness for `recalc_timeout_reports`: two rows, batch size 1, a clock
past the deadline from the first check onward: one batch runs, one row is
processed, the warning is recorded, the second row is untouched. -/
theorem recalc_timeout_reports_witness :
    recalcRun (fun _ => 1) [recalcRowOne, recalcRowTwo] 1 (fun _ => 300001) =
      ({ updated := (([recalcRowOne, recalcRowTwo].take ((0 + 1) * 1)).filter
            (shouldUpdate (fun _ => 1))).length
         processed := (0 + 1) * 1
         errors := [timeoutMsg]
         batches := 0 + 1 },
        ([recalcRowOne, recalcRowTwo].take ((0 + 1) * 1)).map (applyRow (fun _ => 1))
          ++ [recalcRowOne, recalcRowTwo].drop ((0 + 1) * 1)) :=
  recalc_timeout_reports (fun _ => 1) [recalcRowOne, recalcRowTwo] 1 (fun _ => 300001) 0
    (by norm_num) (by intro j h1 h2; omega) (by norm_num) (by norm_num)

/-- Claim C5 (counterexample): the `/recalculate-costs` response carries no
`partial` field at all, neither at top level nor inside `stats`; the timeout
is reported only through the warning entry in `errors`. -/
theorem recalc_no_partial_field :
    "partial" ∉ recalcResponseKeys ∧ "partial" ∉ recalcStatsKeys := by
  constructor <;> decide

/-- A full recalculation run (one that never hits the deadline) rewrites the
table row-wise by `applyRow`: each row's `cost_total` becomes the recomputed
cost exactly when the epsilon guard fires, and is untouched otherwise. -/
theorem recalcGo_complete_table (pricing : CostInput → ℚ) (bsize : Nat) (elapsed : Nat → Nat)
    (hb : 0 < bsize) (hno : ∀ j, elapsed j ≤ 300000) :
    ∀ (fuel : Nat) (rem : List LlmEvent) (res : RecalcResults), rem.length < fuel →
      (recalcGo pricing bsize elapsed fuel rem res).2 = rem.map (applyRow pricing) := by
  intro fuel
  induction fuel with
  | zero => intro rem res h; omega
  | succ fuel ih =>
    intro rem res hfuel
    by_cases hne : rem.take bsize = []
    · have hrem : rem = [] := by
        rcases List.take_eq_nil_iff.mp hne with h | h
        · omega
        · exact h
      subst hrem
      simp [recalcGo]
    · have hto : ¬ 300000 < elapsed (res.batches + 1) := by
        have := hno (res.batches + 1); omega
      rw [recalcGo_step pricing bsize elapsed fuel rem res hne hto]
      have hlen : (rem.drop bsize).length < fuel := by
        rw [List.length_drop]
        have : rem ≠ [] := by
          intro h; rw [h] at hne; simp at hne
        have : 0 < rem.length := List.length_pos.mpr this
        omega
      rw [ih (rem.drop bsize) _ hlen]
      rw [← List.map_append, List.take_append_drop]

/-- If no row of the remaining range trips the epsilon guard, the loop queues
no update at all: `updated` stays where it started. -/
theorem recalcGo_noop_updates (pricing : CostInput → ℚ) (bsize : Nat) (elapsed : Nat → Nat) :
    ∀ (fuel : Nat) (rem : List LlmEvent) (res : RecalcResults),
      (∀ r ∈ rem, shouldUpdate pricing r = false) →
      (recalcGo pricing bsize elapsed fuel rem res).1.updated = res.updated := by
  intro fuel
  induction fuel with
  | zero => intro rem res _; rfl
  | succ fuel ih =>
    intro rem res hnone
    have hfilter : ((rem.take bsize).filter (shouldUpdate pricing)).length = 0 := by
      rw [List.filter_eq_nil_iff.mpr]
      · rfl
      · intro a ha hsa
        exact absurd hsa (by rw [hnone a (List.take_subset bsize rem ha)]; simp)
    by_cases hne : rem.take bsize = []
    · simp [recalcGo, hne]
    · by_cases hto : 300000 < elapsed (res.batches + 1)
      · rw [recalcGo_stop pricing bsize elapsed fuel rem res hne hto]
        simp [hfilter]
      · rw [recalcGo_step pricing bsize elapsed fuel rem res hne hto]
        rw [ih (rem.drop bsize) _ (fun r hr => hnone r (List.drop_subset bsize rem hr))]
        simp [hfilter]

/-- A row updated by `applyRow` never trips the epsilon guard again: its new
stored cost is exactly the recomputed cost (which depends only on the
model/provider/token fields, not on the stored cost). -/
theorem shouldUpdate_applyRow (pricing : CostInput → ℚ) (r : LlmEvent) :
    shouldUpdate pricing (applyRow pricing r) = false := by
  by_cases hs : shouldUpdate pricing r
  · simp only [applyRow, hs, if_true]
    simp [shouldUpdate, costInputOf]
  · simp only [applyRow, hs, if_false]
    exact Bool.not_eq_true _ |>.mp hs

/-- Claim C6: a row is queued for update exactly when the recomputed cost
differs from the stored `cost_total` by more than 1e-6 — no-op rows are never
written (`applyRow` leaves them untouched) — and after a completed first run
the table equals its row-wise recomputation, so a second run over the same
range with the same pricing and no other writes queues nothing:
`updated = 0` whatever clock the second run sees. -/
theorem recalc_epsilon_idempotent (pricing : CostInput → ℚ) (table : List LlmEvent)
    (bsize : Nat) (elapsed1 : Nat → Nat)
    (hb : 0 < bsize) (h1 : ∀ j, elapsed1 j ≤ 300000) :
    (recalcRun pricing table bsize elapsed1).2 = table.map (applyRow pricing)
    ∧ (∀ r, shouldUpdate pricing r = false → applyRow pricing r = r)
    ∧ ∀ elapsed2,
        (recalcRun pricing (recalcRun pricing table bsize elapsed1).2 bsize elapsed2).1.updated
          = 0 := by
  have htable : (recalcRun pricing table bsize elapsed1).2 = table.map (applyRow pricing) :=
    recalcGo_complete_table pricing bsize elapsed1 hb h1 (table.length + 1) table _ (by omega)
  refine ⟨htable, fun r hr => by simp [applyRow, hr], fun elapsed2 => ?_⟩
  rw [htable]
  exact recalcGo_noop_updates pricing bsize elapsed2 _ _ _
    (fun r hr => by
      obtain ⟨r0, _, rfl⟩ := List.mem_map.mp hr
      exact shouldUpdate_applyRow pricing r0)

/-- Witness for `recalc_epsilon_idempotent`: constant pricing 1 over the two
sample rows with batch size 1 and a clock that never times out. -/
theorem recalc_epsilon_idempotent_witness :
    (recalcRun (fun _ => 1) [recalcRowOne, recalcRowTwo] 1 (fun _ => 0)).2
        = [recalcRowOne, recalcRowTwo].map (applyRow (fun _ => 1))
    ∧ (∀ r, shouldUpdate (fun _ => 1) r = false → applyRow (fun _ => 1) r = r)
    ∧ ∀ elapsed2,
        (recalcRun (fun _ => 1)
          (recalcRun (fun _ => 1) [recalcRowOne, recalcRowTwo] 1 (fun _ => 0)).2
          1 elapsed2).1.updated = 0 :=
  recalc_epsilon_idempotent (fun _ => 1) [recalcRowOne, recalcRowTwo] 1 (fun _ => 0)
    (by norm_num) (fun j => by norm_num)

/-- Claim C8 (counterexample): the request `group_by=model,foo` contains the
unsupported field `foo`, yet it does not fail — the invalid field is silently
filtered out and the query proceeds grouping by `model` alone. -/
theorem group_by_invalid_field_ignored :
    logsGroupOutcome "model,foo" = Except.ok ["model"]
    ∧ "foo" ∉ validGroupFields := by
  exact ⟨rfl, by decide⟩

/-- Claim C8 (amended): the grouped `/logs` request fails with the 400
`invalid_group_by` validation error exactly when no entry of the (split and
trimmed) `group_by` list is on the allow-list; whenever at least one entry is
valid the request proceeds, grouping by the valid entries and silently
dropping the unsupported ones. -/
theorem group_by_validation (s : String) :
    (logsGroupOutcome s = Except.error "invalid_group_by"
      ↔ ∀ f ∈ rawGroupFields s, f ∉ validGroupFields)
    ∧ (groupFields s ≠ [] → logsGroupOutcome s = Except.ok (groupFields s)) := by
  constructor
  · constructor
    · intro h f hf hvalid
      by_cases hg : groupFields s = []
      · have hmem : f ∈ groupFields s :=
          List.mem_filter.mpr ⟨hf, List.elem_iff.mpr hvalid⟩
        rw [hg] at hmem
        exact absurd hmem (List.not_mem_nil f)
      · rw [logsGroupOutcome, if_neg hg] at h
        exact absurd h (by simp)
    · intro hall
      have hg : groupFields s = [] := by
        rw [groupFields, List.filter_eq_nil_iff]
        intro f hf hc
        exact hall f hf (List.elem_iff.mp hc)
      rw [logsGroupOutcome, if_pos hg]
  · intro hne
    rw [logsGroupOutcome, if_neg hne]

/-- Witness for `group_by_validation` at `group_by=model,foo`: the filtered
field list is nonempty, so the outcome is `ok` with `foo` dropped. -/
theorem group_by_validation_witness :
    groupFields "model,foo" ≠ []
    ∧ logsGroupOutcome "model,foo" = Except.ok (groupFields "model,foo") :=
  ⟨by decide, (group_by_validation "model,foo").2 (by decide)⟩

/-- Two timestamp-sorted permutations of each other are equal when the
timestamps are pairwise distinct. -/
theorem sorted_perm_tsNodup_eq :
    ∀ (l₁ l₂ : List LlmEvent), l₁.Perm l₂ → l₁.Sorted tsLe → l₂.Sorted tsLe →
      (l₁.map (fun r => r.timestamp)).Nodup → l₁ = l₂ := by
  intro l₁
  induction l₁ with
  | nil =>
    intro l₂ hp _ _ _
    exact (hp.symm.eq_nil).symm
  | cons a t ih =>
    intro l₂ hp hs1 hs2 hnd
    cases l₂ with
    | nil => exact absurd hp.eq_nil (List.cons_ne_nil a t)
    | cons b t₂ =>
      have hab : a = b := by
        rcases List.mem_cons.mp (hp.subset (List.mem_cons_self a t)) with h1 | h1
        · exact h1
        · rcases List.mem_cons.mp (hp.symm.subset (List.mem_cons_self b t₂)) with h2 | h2
          · exact h2.symm
          · have hle1 : a.timestamp ≤ b.timestamp := (List.sorted_cons.mp hs1).1 b h2
            have hle2 : b.timestamp ≤ a.timestamp := (List.sorted_cons.mp hs2).1 a h1
            exact List.inj_on_of_nodup_map hnd (List.mem_cons_self a t)
              (List.mem_cons_of_mem a h2) (le_antisymm hle1 hle2)
      subst hab
      have htail : t = t₂ := by
        refine ih t₂ hp.cons_inv (List.sorted_cons.mp hs1).2 (List.sorted_cons.mp hs2).2 ?_
        simp only [List.map_cons] at hnd
        exact (List.nodup_cons.mp hnd).2
      rw [htail]

/-- Concatenating the successive `OFFSET i * bsize LIMIT bsize` slices of a
list recovers its prefix of length `n * bsize`. -/
theorem range_pages_flatten {α : Type} (ord : List α) (bsize : Nat) :
    ∀ n : Nat,
      ((List.range n).map (fun i => (ord.drop (i * bsize)).take bsize)).flatten
        = ord.take (n * bsize) := by
  intro n
  induction n with
  | zero => simp
  | succ m ih =>
    rw [List.range_succ, List.map_append, List.flatten_append, ih]
    simp only [List.map_cons, List.map_nil, List.flatten_cons, List.flatten_nil,
      List.append_nil]
    rw [Nat.succ_mul, List.take_add]

/-- Claim C9 (counterexample): with two rows sharing a timestamp (`rowTieA`
has `call_sequence` 1, `rowTieB` has 0), `ORDER BY "timestamp"` admits the
ordering `[rowTieA, rowTieB]`, which is not sorted by the composite key
`(timestamp, trace_id, call_sequence)`; and with batch size 1 the two
successive batch fetches may both return `rowTieA` (each fetch re-runs the
query and may get a different tie order), so `rowTieA` is fetched twice and
`rowTieB` never — the pages need not partition the rows. -/
theorem batch_order_counterexample :
    ordByTimestamp [rowTieA, rowTieB] [rowTieA, rowTieB]
    ∧ ¬ List.Sorted compositeLe [rowTieA, rowTieB]
    ∧ pageFetch [rowTieA, rowTieB] 1 0 [rowTieA]
    ∧ pageFetch [rowTieA, rowTieB] 1 1 [rowTieA] := by
  have hsAB : List.Sorted tsLe [rowTieA, rowTieB] := by
    simp [List.sorted_cons, tsLe, rowTieA, rowTieB]
  have hsBA : List.Sorted tsLe [rowTieB, rowTieA] := by
    simp [List.sorted_cons, tsLe, rowTieA, rowTieB]
  refine ⟨⟨List.Perm.refl _, hsAB⟩, ?_, ⟨[rowTieA, rowTieB], ⟨List.Perm.refl _, hsAB⟩, rfl⟩,
    ⟨[rowTieB, rowTieA], ⟨List.Perm.swap rowTieB rowTieA [], hsBA⟩, rfl⟩⟩
  intro h
  have hcomp : compositeLe rowTieA rowTieB :=
    (List.sorted_cons.mp h).1 rowTieB (List.mem_cons_self _ _)
  simp [compositeLe, rowTieA, rowTieB, lt_self_iff_false] at hcomp

/-- Claim C9 (amended): the batch fetch orders rows by `timestamp` alone; the
paging is deterministic and forms a partition exactly when the window's
timestamps are pairwise distinct.  Under that hypothesis: the admissible
`ORDER BY "timestamp"` ordering is unique; any two results of the same
`LIMIT/OFFSET` fetch coincide; and for every batch size the concatenation of
the successive offset pages is exactly that ordering — a permutation of the
window's rows, containing every event row exactly once (and timestamps are
monotone along it, so a partial run resumes by narrowing the range). -/
theorem batch_paging_deterministic (table : List LlmEvent)
    (hnd : (table.map (fun r => r.timestamp)).Nodup) :
    (∀ o₁ o₂, ordByTimestamp table o₁ → ordByTimestamp table o₂ → o₁ = o₂)
    ∧ (∀ limit offset r₁ r₂, pageFetch table limit offset r₁ →
        pageFetch table limit offset r₂ → r₁ = r₂)
    ∧ (∀ bsize n ord, table.length ≤ n * bsize → ordByTimestamp table ord →
        ((List.range n).map (fun i => (ord.drop (i * bsize)).take bsize)).flatten = ord
        ∧ ord.Sorted tsLe
        ∧ ∀ r : LlmEvent,
            (((List.range n).map (fun i => (ord.drop (i * bsize)).take bsize)).flatten.count r
              = table.count r)) := by
  have huniq : ∀ o₁ o₂, ordByTimestamp table o₁ → ordByTimestamp table o₂ → o₁ = o₂ := by
    intro o₁ o₂ h₁ h₂
    refine sorted_perm_tsNodup_eq o₁ o₂ (h₁.1.symm.trans h₂.1) h₁.2 h₂.2 ?_
    exact ((h₁.1.map (fun r => r.timestamp)).nodup_iff).mp hnd
  refine ⟨huniq, ?_, ?_⟩
  · rintro limit offset r₁ r₂ ⟨o₁, ho₁, rfl⟩ ⟨o₂, ho₂, rfl⟩
    rw [huniq o₁ o₂ ho₁ ho₂]
  · intro bsize n ord hn hord
    have hflat :
        ((List.range n).map (fun i => (ord.drop (i * bsize)).take bsize)).flatten = ord := by
      rw [range_pages_flatten ord bsize n]
      exact List.take_of_length_le (by rw [← hord.1.length_eq]; exact hn)
    refine ⟨hflat, hord.2, fun r => ?_⟩
    rw [hflat]
    exact (hord.1.count_eq r).symm

/-- Witness for `batch_paging_deterministic` on a two-row table with distinct
timestamps. -/
theorem batch_paging_deterministic_witness :
    (∀ o₁ o₂, ordByTimestamp [rowTieA, rowLater] o₁ → ordByTimestamp [rowTieA, rowLater] o₂ →
      o₁ = o₂)
    ∧ (∀ limit offset r₁ r₂, pageFetch [rowTieA, rowLater] limit offset r₁ →
        pageFetch [rowTieA, rowLater] limit offset r₂ → r₁ = r₂)
    ∧ (∀ bsize n ord, (2 : Nat) ≤ n * bsize → ordByTimestamp [rowTieA, rowLater] ord →
        ((List.range n).map (fun i => (ord.drop (i * bsize)).take bsize)).flatten = ord
        ∧ ord.Sorted tsLe
        ∧ ∀ r : LlmEvent,
            (((List.range n).map (fun i => (ord.drop (i * bsize)).take bsize)).flatten.count r
              = [rowTieA, rowLater].count r)) :=
  batch_paging_deterministic [rowTieA, rowLater] (by decide)
